import Mathlib

/-!
Verification of the `wake` package (Go): two coordination helpers for the
errgroup pattern, `ListenForQuitSignal` and `WaitWithTimeout` (src/util.go).

The embedding models Go errors as an inductive type with `fmt.Errorf("…: %w", …)`
wrapping and `errors.Is` chain matching; OS signals and the buffered
signal channel of `ListenForQuitSignal`; and the post-cancellation race of
`WaitWithTimeout` between the wait goroutine and the `time.After` timer,
with durations measured from the moment the goroutine is launched.
Each function also gets a small trace model recording the order of its
observable steps (subscribe / block / unsubscribe / return, and
await-context / launch-goroutine / select / return), used for the
lifecycle and ordering claims.
-/

namespace Wake

/-- Go errors as seen by this package: the two package sentinels
(`errors.New` values), the two standard context cancellation reasons,
arbitrary caller-supplied errors, and `fmt.Errorf("%s: %w", note, inner)`
wrapping. Structural equality models Go sentinel identity: distinct
constructors are distinct error values. -/
inductive GoError where
  | errReceivedQuitSignal
  | errWaitDeadlineExceeded
  | contextCanceled
  | contextDeadlineExceeded
  | userError (msg : String)
  | wrap (note : String) (inner : GoError)
deriving DecidableEq, Repr

/-- The `Error()` string of a modelled Go error. The sentinel messages are
the literal strings passed to `errors.New` in src/util.go; `wrap` renders
as `fmt.Errorf("%s: %w", note, inner)` does. -/
def GoError.message : GoError → String
  | .errReceivedQuitSignal => "received quit signal"
  | .errWaitDeadlineExceeded => "wait func didn't complete within timeout"
  | .contextCanceled => "context canceled"
  | .contextDeadlineExceeded => "context deadline exceeded"
  | .userError m => m
  | .wrap note inner => note ++ ": " ++ inner.message

/-- Chain matching of `errors.Is(e, target)` on a non-nil error: compare,
then follow the `%w` unwrap chain. -/
def GoError.isMatch : GoError → GoError → Bool
  | .wrap note inner, target =>
      decide (GoError.wrap note inner = target) || inner.isMatch target
  | e, target => decide (e = target)

/-- A Go `error` value, which may be nil (`none`). -/
def GoErr : Type := Option GoError

instance : DecidableEq GoErr := inferInstanceAs (DecidableEq (Option GoError))

instance : Repr GoErr := inferInstanceAs (Repr (Option GoError))

/-- Model of `errors.Is(err, target)` for a possibly nil `err` and a
non-nil sentinel `target`: nil matches nothing. -/
def errorsIs : GoErr → GoError → Bool
  | none, _ => false
  | some e, target => e.isMatch target

/-- OS signals: the two cross-platform defaults used by the source
(`os.Interrupt` and `syscall.SIGTERM`) and arbitrary other signals. -/
inductive OsSignal where
  | interrupt
  | sigterm
  | other (n : Nat)
deriving DecidableEq, Repr

/-- The display name of a signal, as `fmt` renders an `os.Signal`
(its `String()` method) on Unix. -/
def OsSignal.name : OsSignal → String
  | .interrupt => "interrupt"
  | .sigterm => "terminated"
  | .other n => "signal " ++ toString n

/-- The cancellation reason a standard Go context reports through `Err()`
once its done channel is closed (the `context` package contract: either
`context.Canceled` or `context.DeadlineExceeded`). -/
inductive CtxReason where
  | canceled
  | deadlineExceeded
deriving DecidableEq, Repr

/-- The `ctx.Err()` value corresponding to a cancellation reason. -/
def CtxReason.toError : CtxReason → GoError
  | .canceled => .contextCanceled
  | .deadlineExceeded => .contextDeadlineExceeded

/-- Environment of one `ListenForQuitSignal` call: whether (and why) the
context gets cancelled during the call, the OS signals delivered to the
process during the call in delivery order, and the pseudo-random tie-break
Go `select` applies when both cases are ready simultaneously. -/
structure ListenEnv where
  ctxDone : Bool
  ctxReason : CtxReason
  pendingSignals : List OsSignal
  preferSignal : Bool
deriving DecidableEq, Repr

/-- Source line `sig = append(sig, os.Interrupt, syscall.SIGTERM)` guarded
by `len(sig) == 0`: the effective subscription set of the call. -/
def effectiveSignals (sig : List OsSignal) : List OsSignal :=
  if sig.length = 0 then sig ++ [.interrupt, .sigterm] else sig

/-- Content of the buffered channel `c := make(chan os.Signal, 1)` after
`signal.Notify(c, sub...)`: the runtime forwards only subscribed signals
and performs a non-blocking send, so the single buffer slot holds the
first delivered signal that is in the subscription set (later ones are
dropped while the slot is full). -/
def deliveredToChan (sub delivered : List OsSignal) : Option OsSignal :=
  (delivered.filter (fun s => decide (s ∈ sub))).head?

/-- The error built on the signal branch:
`fmt.Errorf("%s: %w", s, ErrReceivedQuitSignal)`. -/
def quitError (s : OsSignal) : GoError :=
  .wrap s.name .errReceivedQuitSignal

/-- Resolution of the `select` in `ListenForQuitSignal` given the
subscription set: `none` means neither case ever becomes ready and the
call blocks forever (it does not return). -/
def selectOutcome (env : ListenEnv) (sub : List OsSignal) : Option GoErr :=
  match deliveredToChan sub env.pendingSignals, env.ctxDone with
  | some s, true =>
      if env.preferSignal then some (some (quitError s))
      else some (some env.ctxReason.toError)
  | some s, false => some (some (quitError s))
  | none, true => some (some env.ctxReason.toError)
  | none, false => none

/-- `ListenForQuitSignal(ctx, sig...)`: result of the call in environment
`env` (`none` when the call never returns). -/
def listenForQuitSignal (env : ListenEnv) (sig : List OsSignal) : Option GoErr :=
  selectOutcome env (effectiveSignals sig)

/-- Observable steps of one `ListenForQuitSignal` call. -/
inductive LStep where
  | subscribe (sub : List OsSignal)
  | selectWait
  | unsubscribe
  | ret (r : GoErr)
deriving DecidableEq, Repr

/-- Trace of one `ListenForQuitSignal` call: `signal.Notify` runs first,
then the call blocks in `select`; on either branch the deferred
`signal.Stop(c)` runs before the return. A blocked call never reaches
`unsubscribe` or `ret`. -/
def listenTrace (env : ListenEnv) (sig : List OsSignal) : List LStep :=
  let sub := effectiveSignals sig
  LStep.subscribe sub :: LStep.selectWait ::
    match selectOutcome env sub with
    | some r => [LStep.unsubscribe, LStep.ret r]
    | none => []

/-- Number of `unsubscribe` steps in a trace. -/
def unsubCount (tr : List LStep) : Nat :=
  (tr.filter (fun st => match st with | LStep.unsubscribe => true | _ => false)).length

/-- Environment of one `WaitWithTimeout` call: whether the context gets
cancelled (it never un-cancels, so a `Bool` suffices), how long the `wait`
callable runs after being invoked (`none`: it never returns), the error it
eventually returns, and the `select` tie-break when the buffered result and
the timer become ready at the same instant. Durations are measured from
the moment the goroutine is launched, which is also when `time.After`
starts the timer. -/
structure WaitEnv where
  ctxDone : Bool
  waitDuration : Option Nat
  waitResult : GoErr
  preferRec : Bool

/-- Delay, from the launch of the goroutine, after which the
`time.After(timeout)` timer fires. `timeout` is a `time.Duration`
(an integer nanosecond count); a zero or negative duration fires the
timer immediately. -/
def timerFireDelay (timeout : Int) : Nat := timeout.toNat

/-- Resolution of the `select` in `WaitWithTimeout`: the buffered result
channel `rec` wins when `wait` delivers strictly before the timer fires,
the timer wins when it fires strictly first (also when `wait` never
returns), and a simultaneous tie is resolved by the pseudo-random choice
of `select`. -/
def waitSelect (env : WaitEnv) (timeout : Int) : GoErr :=
  match env.waitDuration with
  | none => some GoError.errWaitDeadlineExceeded
  | some d =>
      if d < timerFireDelay timeout then env.waitResult
      else if timerFireDelay timeout < d then some GoError.errWaitDeadlineExceeded
      else if env.preferRec then env.waitResult
      else some GoError.errWaitDeadlineExceeded

/-- `WaitWithTimeout(ctx, timeout, wait)`: the call first blocks on
`<-ctx.Done()` and returns nothing while the context is alive (`none`);
once cancellation is observed it launches the goroutine and returns the
resolution of the `select`. -/
def waitWithTimeout (env : WaitEnv) (timeout : Int) : Option GoErr :=
  if env.ctxDone then some (waitSelect env timeout) else none

/-- Observable steps of one `WaitWithTimeout` call. -/
inductive WStep where
  | awaitCtx
  | launchWait
  | selectBegin
  | ret (r : GoErr)
deriving DecidableEq, Repr

/-- Trace of one `WaitWithTimeout` call: block on the done channel; if the
context is never cancelled nothing else happens and `wait` is never
invoked; once cancelled, launch the goroutine running `wait`, enter the
`select`, and return its resolution (the timer guarantees the select
always resolves). -/
def waitTrace (env : WaitEnv) (timeout : Int) : List WStep :=
  if env.ctxDone then
    [WStep.awaitCtx, WStep.launchWait, WStep.selectBegin,
      WStep.ret (waitSelect env timeout)]
  else [WStep.awaitCtx]

/-- Number of `launchWait` steps in a trace. -/
def launchCount (tr : List WStep) : Nat :=
  (tr.filter (fun st => match st with | WStep.launchWait => true | _ => false)).length

/-- Capacity of the result channel `rec := make(chan error, 1)`. -/
def recCapacity : Nat := 1

/-- Number of sends the wait goroutine ever performs into `rec` in
environment `env`: one when `wait` returns, zero when it runs forever.
Nothing else sends into `rec`. A send into a buffered channel blocks only
when more values than the capacity are outstanding, so
`recSends env ≤ recCapacity` means the abandoned goroutine can always
deliver its result without blocking. -/
def recSends (env : WaitEnv) : Nat :=
  match env.waitDuration with
  | none => 0
  | some _ => 1

/-- Wrapping an error in further layers of context, as callers do with
`fmt.Errorf("…: %w", err)` when propagating upward. -/
def wrapLayers : List String → GoError → GoError
  | [], e => e
  | n :: ns, e => .wrap n (wrapLayers ns e)

/-- Does the timer of the `select` in `WaitWithTimeout` fire strictly
before the wait goroutine delivers its result? -/
def timerFiresFirst (env : WaitEnv) (timeout : Int) : Bool :=
  match env.waitDuration with
  | none => true
  | some d => decide (timerFireDelay timeout < d)

theorem GoError.isMatch_self (e : GoError) : e.isMatch e = true := by
  cases e <;> simp [GoError.isMatch]

theorem GoError.isMatch_wrapLayers (ls : List String) (e t : GoError)
    (h : e.isMatch t = true) : (wrapLayers ls e).isMatch t = true := by
  induction ls with
  | nil => simpa [wrapLayers] using h
  | cons n ns ih => simp [wrapLayers, GoError.isMatch, ih]

theorem CtxReason.toError_not_quit (r : CtxReason) :
    GoError.isMatch r.toError GoError.errReceivedQuitSignal = false := by
  cases r <;> rfl

theorem deliveredToChan_eq_none (sub delivered : List OsSignal)
    (h : ∀ s ∈ delivered, s ∉ sub) :
    deliveredToChan sub delivered = none := by
  induction delivered with
  | nil => rfl
  | cons a l ih =>
    have ha : a ∉ sub := h a (by simp)
    have step : deliveredToChan sub (a :: l) = deliveredToChan sub l := by
      simp [deliveredToChan, List.filter_cons, ha]
    rw [step]
    exact ih (fun s hs => h s (by simp [hs]))

theorem deliveredToChan_is_some (sub delivered : List OsSignal) (s : OsSignal)
    (hs : s ∈ delivered) (hsub : s ∈ sub) :
    ∃ s', deliveredToChan sub delivered = some s' := by
  induction delivered with
  | nil => cases hs
  | cons a l ih =>
    by_cases ha : a ∈ sub
    · exact ⟨a, by simp [deliveredToChan, List.filter_cons, ha]⟩
    · have hal : s ∈ l := by
        rcases List.mem_cons.mp hs with h | h
        · exact absurd (h ▸ hsub) ha
        · exact h
      have step : deliveredToChan sub (a :: l) = deliveredToChan sub l := by
        simp [deliveredToChan, List.filter_cons, ha]
      rw [step]
      exact ih hal

/-- C1: on the signal branch `ListenForQuitSignal` returns a non-nil error
wrapping `ErrReceivedQuitSignal`, whose message embeds the received
signal's name, which `errors.Is`-matches the sentinel, and which still
matches after any further layers of wrapping. -/
theorem listen_signal_branch (env : ListenEnv) (sig : List OsSignal) (s : OsSignal)
    (hs : deliveredToChan (effectiveSignals sig) env.pendingSignals = some s)
    (hb : env.ctxDone = false ∨ env.preferSignal = true) :
    listenForQuitSignal env sig = some (some (quitError s)) ∧
    (quitError s).message = s.name ++ ": " ++ GoError.message .errReceivedQuitSignal ∧
    errorsIs (some (quitError s)) .errReceivedQuitSignal = true ∧
    ∀ layers : List String,
      errorsIs (some (wrapLayers layers (quitError s))) .errReceivedQuitSignal = true := by
  refine ⟨?_, rfl, ?_, ?_⟩
  · rcases hb with h | h
    · simp [listenForQuitSignal, selectOutcome, hs, h]
    · cases hc : env.ctxDone <;> simp [listenForQuitSignal, selectOutcome, hs, hc, h]
  · simp [errorsIs, quitError, GoError.isMatch]
  · intro layers
    exact GoError.isMatch_wrapLayers layers _ _ (by simp [quitError, GoError.isMatch])

theorem listen_signal_branch_witness :
    listenForQuitSignal ⟨false, .canceled, [.sigterm], false⟩ [] =
      some (some (quitError .sigterm)) :=
  (listen_signal_branch ⟨false, .canceled, [.sigterm], false⟩ [] .sigterm
    (by decide) (Or.inl rfl)).1

/-- C2: on the context branch `ListenForQuitSignal` returns `ctx.Err()`
unchanged, which does not `errors.Is`-match `ErrReceivedQuitSignal`. -/
theorem listen_ctx_branch (env : ListenEnv) (sig : List OsSignal)
    (hd : env.ctxDone = true)
    (hb : deliveredToChan (effectiveSignals sig) env.pendingSignals = none ∨
      env.preferSignal = false) :
    listenForQuitSignal env sig = some (some env.ctxReason.toError) ∧
    errorsIs (some env.ctxReason.toError) GoError.errReceivedQuitSignal = false := by
  constructor
  · rcases hb with h | h
    · simp [listenForQuitSignal, selectOutcome, h, hd]
    · cases hc : deliveredToChan (effectiveSignals sig) env.pendingSignals <;>
        simp [listenForQuitSignal, selectOutcome, hc, hd, h]
  · simpa [errorsIs] using CtxReason.toError_not_quit env.ctxReason

theorem listen_ctx_branch_witness :
    listenForQuitSignal ⟨true, .canceled, [], false⟩ [] =
      some (some CtxReason.canceled.toError) :=
  (listen_ctx_branch ⟨true, .canceled, [], false⟩ [] rfl (Or.inl (by decide))).1

/-- C3: when the wait callable completes strictly before the timer fires,
`WaitWithTimeout` returns its result verbatim, nil or not; a non-nil
result satisfies the identity `errors.Is` check. -/
theorem wait_completes_first (env : WaitEnv) (timeout : Int) (d : Nat)
    (hc : env.ctxDone = true)
    (hd : env.waitDuration = some d)
    (hlt : d < timerFireDelay timeout) :
    waitWithTimeout env timeout = some env.waitResult ∧
    ∀ e, env.waitResult = some e → errorsIs env.waitResult e = true := by
  constructor
  · simp [waitWithTimeout, hc, waitSelect, hd, hlt]
  · intro e he
    rw [he]
    simp [errorsIs, GoError.isMatch_self]

theorem wait_completes_first_witness :
    waitWithTimeout ⟨true, some 0, some (.userError "boom"), false⟩ 5 =
      some (some (.userError "boom")) :=
  (wait_completes_first ⟨true, some 0, some (.userError "boom"), false⟩ 5 0
    rfl rfl (by decide)).1

/-- C4: when the timer fires strictly before the wait callable delivers
(also when it never finishes), `WaitWithTimeout` returns
`ErrWaitDeadlineExceeded`; the eventual result of the wait callable is
discarded (the return value is the same for every possible result), the
call returns without awaiting the goroutine further (the return is the
last step of its trace), and the single send of the abandoned goroutine
fits in the buffered single-slot channel, so it never blocks. -/
theorem wait_timer_first (env : WaitEnv) (timeout : Int)
    (hc : env.ctxDone = true)
    (ht : timerFiresFirst env timeout = true) :
    waitWithTimeout env timeout = some (some GoError.errWaitDeadlineExceeded) ∧
    (∀ r : GoErr, waitWithTimeout { env with waitResult := r } timeout =
      some (some GoError.errWaitDeadlineExceeded)) ∧
    (waitTrace env timeout).getLast? =
      some (WStep.ret (some GoError.errWaitDeadlineExceeded)) ∧
    recSends env ≤ recCapacity := by
  cases hwd : env.waitDuration with
  | none =>
    refine ⟨?_, fun r => ?_, ?_, ?_⟩ <;>
      simp [waitWithTimeout, hc, waitSelect, hwd, waitTrace, recSends, recCapacity]
  | some d =>
    have hlt : timerFireDelay timeout < d := by
      simpa [timerFiresFirst, hwd] using ht
    have hnlt : ¬ d < timerFireDelay timeout := Nat.not_lt.mpr (le_of_lt hlt)
    refine ⟨?_, fun r => ?_, ?_, ?_⟩ <;>
      simp [waitWithTimeout, hc, waitSelect, hwd, hlt, hnlt, waitTrace,
        recSends, recCapacity]

theorem wait_timer_first_witness :
    waitWithTimeout ⟨true, none, none, false⟩ 5 =
      some (some GoError.errWaitDeadlineExceeded) :=
  (wait_timer_first ⟨true, none, none, false⟩ 5 rfl rfl).1

/-- C5: `WaitWithTimeout` never invokes the wait callable before the
context's done-notification fires — while the context is alive its trace
is just the block on the done channel, with no launch step — and once
cancellation is observed the callable is launched exactly once, on its own
goroutine, after the block on the done channel. -/
theorem wait_launch_after_cancel (env : WaitEnv) (timeout : Int) :
    (env.ctxDone = false →
      waitTrace env timeout = [WStep.awaitCtx] ∧
      launchCount (waitTrace env timeout) = 0) ∧
    (env.ctxDone = true →
      waitTrace env timeout =
        [WStep.awaitCtx, WStep.launchWait, WStep.selectBegin,
          WStep.ret (waitSelect env timeout)] ∧
      launchCount (waitTrace env timeout) = 1) := by
  constructor
  · intro h
    refine ⟨by simp [waitTrace, h], ?_⟩
    simp [waitTrace, h, launchCount]
  · intro h
    refine ⟨by simp [waitTrace, h], ?_⟩
    simp [waitTrace, h, launchCount]

theorem wait_launch_after_cancel_witness :
    launchCount (waitTrace ⟨false, some 0, none, true⟩ 5) = 0 ∧
    launchCount (waitTrace ⟨true, some 0, none, true⟩ 5) = 1 :=
  ⟨((wait_launch_after_cancel ⟨false, some 0, none, true⟩ 5).1 rfl).2,
    ((wait_launch_after_cancel ⟨true, some 0, none, true⟩ 5).2 rfl).2⟩

/-- C6: with an empty signal list `ListenForQuitSignal` subscribes to
exactly `os.Interrupt` and `syscall.SIGTERM`; a delivered signal from this
default pair makes it return the quit-signal error, while a call that only
ever sees signals outside the pair (and no context cancellation) never
returns. -/
theorem listen_default_set (env : ListenEnv) :
    effectiveSignals [] = [OsSignal.interrupt, OsSignal.sigterm] ∧
    (env.ctxDone = false →
      ∀ s ∈ env.pendingSignals, s ∈ [OsSignal.interrupt, OsSignal.sigterm] →
      ∃ s', listenForQuitSignal env [] = some (some (quitError s')) ∧
        (quitError s').isMatch GoError.errReceivedQuitSignal = true) ∧
    (env.ctxDone = false →
      (∀ s ∈ env.pendingSignals, s ∉ [OsSignal.interrupt, OsSignal.sigterm]) →
      listenForQuitSignal env [] = none) := by
  refine ⟨rfl, ?_, ?_⟩
  · intro hc s hmem hdef
    obtain ⟨s', hs'⟩ := deliveredToChan_is_some (effectiveSignals []) env.pendingSignals s
      hmem (by simpa [effectiveSignals] using hdef)
    refine ⟨s', ?_, by simp [quitError, GoError.isMatch]⟩
    simp [listenForQuitSignal, selectOutcome, hs', hc]
  · intro hc hout
    have hnone : deliveredToChan (effectiveSignals []) env.pendingSignals = none :=
      deliveredToChan_eq_none _ _
        (fun s hs => by simpa [effectiveSignals] using hout s hs)
    simp [listenForQuitSignal, selectOutcome, hnone, hc]

theorem listen_default_set_witness :
    listenForQuitSignal ⟨false, .canceled, [.other 3, .other 3], false⟩ [] = none :=
  ((listen_default_set ⟨false, .canceled, [.other 3, .other 3], false⟩).2.2 rfl
    (by decide))

/-- C7: on every return path of `ListenForQuitSignal` — context branch and
signal branch alike — the deferred `signal.Stop` releases the subscription
exactly once before the return, and the return is the last step of the
trace, so no subscription outlives the call. -/
theorem listen_unsubscribes_once (env : ListenEnv) (sig : List OsSignal) (r : GoErr)
    (h : listenForQuitSignal env sig = some r) :
    listenTrace env sig =
      [LStep.subscribe (effectiveSignals sig), LStep.selectWait,
        LStep.unsubscribe, LStep.ret r] ∧
    unsubCount (listenTrace env sig) = 1 ∧
    (listenTrace env sig).getLast? = some (LStep.ret r) := by
  have h' : selectOutcome env (effectiveSignals sig) = some r := h
  refine ⟨?_, ?_, ?_⟩ <;> simp [listenTrace, h', unsubCount]

theorem listen_unsubscribes_once_witness :
    unsubCount (listenTrace ⟨true, .canceled, [], false⟩ []) = 1 :=
  (listen_unsubscribes_once ⟨true, .canceled, [], false⟩ []
    (some CtxReason.canceled.toError) rfl).2.1

/-- C8: the subscription with its single-slot buffered channel is set up
synchronously before the call blocks in `select` (the trace starts with
the subscribe step, then the block), so a subscribed signal delivered at
any point of the call — in particular right after entry, before the call
suspends — is buffered rather than lost and still produces the
quit-signal return. -/
theorem listen_subscribe_before_block (env : ListenEnv) (sig : List OsSignal) :
    (∃ rest, listenTrace env sig =
      LStep.subscribe (effectiveSignals sig) :: LStep.selectWait :: rest) ∧
    (env.ctxDone = false →
      ∀ s ∈ env.pendingSignals, s ∈ effectiveSignals sig →
      ∃ s', listenForQuitSignal env sig = some (some (quitError s'))) := by
  refine ⟨⟨_, rfl⟩, ?_⟩
  intro hc s hmem hsub
  obtain ⟨s', hs'⟩ := deliveredToChan_is_some (effectiveSignals sig)
    env.pendingSignals s hmem hsub
  exact ⟨s', by simp [listenForQuitSignal, selectOutcome, hs', hc]⟩

theorem listen_subscribe_before_block_witness :
    ∃ s', listenForQuitSignal ⟨false, .canceled, [.interrupt], true⟩ [] =
      some (some (quitError s')) :=
  (listen_subscribe_before_block ⟨false, .canceled, [.interrupt], true⟩ []).2
    rfl .interrupt (by decide) (by decide)

/-- C9: `ListenForQuitSignal` never returns a nil error: every value it
returns is either the non-nil quit-signal error wrapping the sentinel or
the non-nil `ctx.Err()` of the cancelled context. -/
theorem listen_never_nil (env : ListenEnv) (sig : List OsSignal) (r : GoErr)
    (h : listenForQuitSignal env sig = some r) :
    (∃ e, r = some e) ∧
    ((∃ s, r = some (quitError s) ∧ errorsIs r GoError.errReceivedQuitSignal = true) ∨
      r = some env.ctxReason.toError) := by
  unfold listenForQuitSignal selectOutcome at h
  cases hd : deliveredToChan (effectiveSignals sig) env.pendingSignals with
  | none =>
    cases hc : env.ctxDone <;> rw [hd, hc] at h
    · exact absurd h (by simp)
    · obtain rfl : some env.ctxReason.toError = r := by simpa using h
      exact ⟨⟨_, rfl⟩, Or.inr rfl⟩
  | some s =>
    cases hc : env.ctxDone <;> rw [hd, hc] at h
    · obtain rfl : some (quitError s) = r := by simpa using h
      exact ⟨⟨_, rfl⟩, Or.inl ⟨s, rfl, by simp [errorsIs, quitError, GoError.isMatch]⟩⟩
    · change (if env.preferSignal = true then some (some (quitError s))
        else some (some env.ctxReason.toError)) = some r at h
      by_cases hp : env.preferSignal = true
      · rw [if_pos hp] at h
        obtain rfl : some (quitError s) = r := by simpa using h
        exact ⟨⟨_, rfl⟩, Or.inl ⟨s, rfl, by simp [errorsIs, quitError, GoError.isMatch]⟩⟩
      · rw [if_neg hp] at h
        obtain rfl : some env.ctxReason.toError = r := by simpa using h
        exact ⟨⟨_, rfl⟩, Or.inr rfl⟩

theorem listen_never_nil_witness :
    ∃ e, (some CtxReason.canceled.toError : GoErr) = some e :=
  (listen_never_nil ⟨true, .canceled, [], false⟩ []
    (some CtxReason.canceled.toError) rfl).1

/-- C10: with a zero or negative timeout, `WaitWithTimeout` still returns
once the context is cancelled — the timer fires immediately — and the
value returned is either the wait result already sitting in the buffered
channel at the moment of selection or `ErrWaitDeadlineExceeded`. -/
theorem wait_nonpositive_timeout (env : WaitEnv) (timeout : Int)
    (ht : timeout ≤ 0) (hc : env.ctxDone = true) :
    ∃ r, waitWithTimeout env timeout = some r ∧
      (r = env.waitResult ∨ r = some GoError.errWaitDeadlineExceeded) := by
  have h0 : timerFireDelay timeout = 0 := by
    simp only [timerFireDelay]
    omega
  cases hwd : env.waitDuration with
  | none =>
    exact ⟨some GoError.errWaitDeadlineExceeded,
      by simp [waitWithTimeout, hc, waitSelect, hwd], Or.inr rfl⟩
  | some d =>
    cases d with
    | zero =>
      by_cases hp : env.preferRec = true
      · exact ⟨env.waitResult,
          by simp [waitWithTimeout, hc, waitSelect, hwd, h0, hp], Or.inl rfl⟩
      · exact ⟨some GoError.errWaitDeadlineExceeded,
          by simp [waitWithTimeout, hc, waitSelect, hwd, h0, hp], Or.inr rfl⟩
    | succ n =>
      exact ⟨some GoError.errWaitDeadlineExceeded,
        by simp [waitWithTimeout, hc, waitSelect, hwd, h0], Or.inr rfl⟩

theorem wait_nonpositive_timeout_witness :
    ∃ r, waitWithTimeout ⟨true, some 0, none, true⟩ (-7) = some r ∧
      (r = (none : GoErr) ∨ r = some GoError.errWaitDeadlineExceeded) :=
  wait_nonpositive_timeout ⟨true, some 0, none, true⟩ (-7) (by decide) rfl

end Wake
